import Mathlib

/-!
Shallow embedding of the event-scraping pipeline implemented in
`src/app/api/scrape-events/route.ts`.

The route builds a streamed response: it walks five named steps
("methods"), broadcasting a progress record after each transition and a
single terminal record at the end.  Step 4 ("Parse Event Details")
normalizes the raw fragments extracted from the page into
`MonopolyEvent` values grouped by a calendar-date key; step 5 sorts the
result.  External effects (the dynamic `import("puppeteer")`, the
browser launch, the page navigation/wait calls, `page.evaluate`, and
`browser.close`) are modelled by an `Env` record that fixes the outcome
of each external call; the pure record stream produced for a given
environment is computed by `runPipeline`.

Machine-level caveats of the JavaScript source that the embedding keeps:
  * `new Date(event.date)` parses a `YYYY/MM/DD` string as *local* time,
    and `toISOString` formats the *UTC* instant, so the derived date key
    depends on the runtime UTC offset.  The offset (in minutes, local =
    UTC + offset) is an explicit parameter `o` of the embedding.
  * `.replace(" ", "T")` replaces only the first space; `.replace(/\//g,"-")`
    replaces every slash.
  * the fallback branch is selected by testing whether the caught error's
    message contains the substring "Puppeteer not available".
  * `JSON.stringify` drops `undefined` members, so optional payload
    fields are modelled with `Option` (`none` = absent).
String comparison (`localeCompare` on the fixed-format timestamps and the
default `Array.sort` on the `YYYY-MM-DD` keys) coincides with code-unit
lexicographic order on these ASCII strings and is modelled by `lexLe`.
-/

namespace MGScraper

/-- Code-unit lexicographic order on character lists; models JavaScript
string comparison for the ASCII data handled by the route. -/
def lexLe : List Char → List Char → Bool
  | [], _ => true
  | _ :: _, [] => false
  | a :: as, b :: bs => if a = b then lexLe as bs else decide (a < b)

/-- Lexicographic order on strings (via their character data). -/
def strLe (s t : String) : Bool := lexLe s.data t.data

/-- `needle.isPrefixOf`-based substring test: models JavaScript
`String.prototype.includes`. -/
def containsSub (needle : List Char) : List Char → Bool
  | [] => needle.isEmpty
  | c :: cs => needle.isPrefixOf (c :: cs) || containsSub needle cs

/-- Whitespace as matched by the `\s` regex class and `String.prototype.trim`
(the route's data only ever involves these four characters). -/
def jsWhitespace (c : Char) : Bool :=
  c = ' ' || c = '\t' || c = '\n' || c = '\r'

/-- Models `String.prototype.trim`: drop whitespace from both ends. -/
def trimChars (l : List Char) : List Char :=
  ((l.dropWhile jsWhitespace).reverse.dropWhile jsWhitespace).reverse

/-! ### Calendar dates and the `new Date(...).toISOString()` key -/

/-- A civil (proleptic Gregorian) calendar date. -/
structure Civil where
  y : Nat
  m : Nat
  d : Nat
deriving DecidableEq, Repr

/-- Gregorian leap-year rule. -/
def isLeap (y : Nat) : Bool :=
  (y % 4 == 0 && y % 100 != 0) || y % 400 == 0

/-- Number of days of month `m` (1-based) in year `y`. -/
def daysInMonth (y : Nat) (m : Nat) : Nat :=
  match m with
  | 1 => 31
  | 2 => if isLeap y then 29 else 28
  | 3 => 31
  | 4 => 30
  | 5 => 31
  | 6 => 30
  | 7 => 31
  | 8 => 31
  | 9 => 30
  | 10 => 31
  | 11 => 30
  | 12 => 31
  | _ => 30

/-- Successor day in the civil calendar. -/
def nextCivil (c : Civil) : Civil :=
  if c.d < daysInMonth c.y c.m then ⟨c.y, c.m, c.d + 1⟩
  else if c.m < 12 then ⟨c.y, c.m + 1, 1⟩
  else ⟨c.y + 1, 1, 1⟩

/-- Predecessor day in the civil calendar. -/
def prevCivil (c : Civil) : Civil :=
  if 1 < c.d then ⟨c.y, c.m, c.d - 1⟩
  else if 1 < c.m then ⟨c.y, c.m - 1, daysInMonth c.y (c.m - 1)⟩
  else ⟨c.y - 1, 12, 31⟩

/-- Shift a civil date by `k` days. -/
def shiftCivil (k : Int) (c : Civil) : Civil :=
  if 0 ≤ k then Nat.iterate nextCivil k.toNat c
  else Nat.iterate prevCivil (-k).toNat c

/-- Numeric value of a decimal digit character. -/
def digitVal (c : Char) : Nat := c.toNat - 48

/-- Two-digit zero-padded decimal rendering (as `toISOString` emits). -/
def pad2 (n : Nat) : List Char :=
  [Nat.digitChar (n / 10 % 10), Nat.digitChar (n % 10)]

/-- Four-digit zero-padded decimal rendering (as `toISOString` emits). -/
def pad4 (n : Nat) : List Char :=
  [Nat.digitChar (n / 1000 % 10), Nat.digitChar (n / 100 % 10),
   Nat.digitChar (n / 10 % 10), Nat.digitChar (n % 10)]

/-- The `YYYY-MM-DD` rendering of a civil date, i.e. the result of
`toISOString().split("T")[0]` for a UTC instant on that date. -/
def civKeyStr (c : Civil) : String :=
  ⟨pad4 c.y ++ '-' :: pad2 c.m ++ '-' :: pad2 c.d⟩

/-- Normalize a day count that may exceed the month length (the lenient
`new Date` parser accepts day 1..31 and rolls the excess into the next
month, e.g. `2025/02/30` denotes March 2). -/
def rollCivil (y m d : Nat) : Civil :=
  if d ≤ daysInMonth y m then ⟨y, m, d⟩ else ⟨y, m + 1, d - daysInMonth y m⟩

/-- Models `new Date(s)` for the date-header strings the route consumes:
a `YYYY/MM/DD` string (month 1..12, day 1..31, excess days rolled over)
parses to local midnight of that civil date; anything else is an Invalid
Date, on which the subsequent `toISOString()` throws (modelled as `none`).
The parse of non-ISO strings is implementation-defined in ECMAScript; this
follows the lenient slash-format rule of the major engines. -/
def jsParseDate (s : String) : Option Civil :=
  match s.data with
  | [a1, a2, a3, a4, '/', b1, b2, '/', c1, c2] =>
    if a1.isDigit && a2.isDigit && a3.isDigit && a4.isDigit &&
       b1.isDigit && b2.isDigit && c1.isDigit && c2.isDigit then
      let y := ((digitVal a1 * 10 + digitVal a2) * 10 + digitVal a3) * 10 + digitVal a4
      let m := digitVal b1 * 10 + digitVal b2
      let d := digitVal c1 * 10 + digitVal c2
      if 1 ≤ m && m ≤ 12 && 1 ≤ d && d ≤ 31 then some (rollCivil y m d) else none
    else none
  | _ => none

/-- Whole days between local midnight and the corresponding UTC instant:
with runtime offset `o` minutes (local = UTC + o), the UTC instant of
local midnight lies `⌊(-o) / 1440⌋` days after the local date (floor
division, written out over `Nat` division). -/
def dayShift (o : Int) : Int :=
  if 0 ≤ -o then ((-o).toNat / 1440 : Nat)
  else -((((o - 1).toNat / 1440 : Nat) : Int) + 1)

/-- The date key the route derives for a parsed header date `c` under
runtime UTC offset `o`: the UTC calendar date of local midnight of `c`. -/
def derivedKey (o : Int) (c : Civil) : String :=
  civKeyStr (shiftCivil (dayShift o) c)

/-- Models `new Date(s).toISOString().split("T")[0]` under runtime UTC
offset `o` (minutes): parse `s` as local midnight, convert the instant to
UTC, and render its calendar date. `none` models the `RangeError` that
`toISOString` raises on an Invalid Date. -/
def jsDateKey (o : Int) (s : String) : Option String :=
  (jsParseDate s).map (derivedKey o)

/-! ### Timestamps and the time-range regex -/

/-- The six captured components of one `YYYY/MM/DD HH:MM:SS` timestamp,
each stored as its run of digit characters. -/
structure Timestamp where
  y : List Char
  mo : List Char
  d : List Char
  h : List Char
  mi : List Char
  s : List Char
deriving DecidableEq, Repr

/-- The raw text the timestamp was matched from. -/
def tsRaw (t : Timestamp) : List Char :=
  t.y ++ ('/' :: (t.mo ++ ('/' :: (t.d ++ (' ' :: (t.h ++ (':' :: (t.mi ++ (':' :: t.s)))))))))

/-- Character map of `.replace(/\//g, "-")`. -/
def slashDash (c : Char) : Char := if c = '/' then '-' else c

/-- Models `.replace(" ", "T")`: only the first space is replaced. -/
def replaceFirstSpace : List Char → List Char
  | [] => []
  | c :: cs => if c = ' ' then 'T' :: cs else c :: replaceFirstSpace cs

/-- The code's transliteration of a matched timestamp:
`m.replace(/\//g, "-").replace(" ", "T")`. -/
def jsTimestampIso (t : Timestamp) : List Char :=
  replaceFirstSpace ((tsRaw t).map slashDash)

/-- The ISO-like form `YYYY-MM-DDTHH:MM:SS` of a timestamp, assembled
directly from its components. -/
def tsIso (t : Timestamp) : List Char :=
  t.y ++ ('-' :: (t.mo ++ ('-' :: (t.d ++ ('T' :: (t.h ++ (':' :: (t.mi ++ (':' :: t.s)))))))))

/-- Well-formedness guaranteed by the regex: component widths 4/2/2/2/2/2
and every component character a decimal digit. -/
def tsWf (t : Timestamp) : Prop :=
  t.y.length = 4 ∧ t.mo.length = 2 ∧ t.d.length = 2 ∧
  t.h.length = 2 ∧ t.mi.length = 2 ∧ t.s.length = 2 ∧
  t.y.all Char.isDigit = true ∧ t.mo.all Char.isDigit = true ∧
  t.d.all Char.isDigit = true ∧ t.h.all Char.isDigit = true ∧
  t.mi.all Char.isDigit = true ∧ t.s.all Char.isDigit = true

/-- Componentwise lexicographic order on timestamps (year first). -/
def tsLe (t u : Timestamp) : Bool :=
  if t.y ≠ u.y then lexLe t.y u.y
  else if t.mo ≠ u.mo then lexLe t.mo u.mo
  else if t.d ≠ u.d then lexLe t.d u.d
  else if t.h ≠ u.h then lexLe t.h u.h
  else if t.mi ≠ u.mi then lexLe t.mi u.mi
  else lexLe t.s u.s

/-- Try to read one `\d{4}/\d{2}/\d{2} \d{2}:\d{2}:\d{2}` timestamp at the
head of the list, returning it and the remaining characters. -/
def parseTS : List Char → Option (Timestamp × List Char)
  | a1 :: a2 :: a3 :: a4 :: '/' :: b1 :: b2 :: '/' :: c1 :: c2 :: ' ' ::
      d1 :: d2 :: ':' :: e1 :: e2 :: ':' :: f1 :: f2 :: rest =>
    if a1.isDigit && a2.isDigit && a3.isDigit && a4.isDigit &&
       b1.isDigit && b2.isDigit && c1.isDigit && c2.isDigit &&
       d1.isDigit && d2.isDigit && e1.isDigit && e2.isDigit &&
       f1.isDigit && f2.isDigit then
      some (⟨[a1, a2, a3, a4], [b1, b2], [c1, c2], [d1, d2], [e1, e2], [f1, f2]⟩, rest)
    else none
  | _ => none

/-- Try to match the full range pattern
`(\d{4}/\d{2}/\d{2} \d{2}:\d{2}:\d{2}) - (\d{4}/\d{2}/\d{2} \d{2}:\d{2}:\d{2})`
anchored at the head of the list. -/
def parseTimeRange (l : List Char) : Option (Timestamp × Timestamp) :=
  match parseTS l with
  | none => none
  | some (t1, r1) =>
    match r1 with
    | ' ' :: '-' :: ' ' :: r2 =>
      match parseTS r2 with
      | none => none
      | some (t2, _) => some (t1, t2)
    | _ => none

/-- Models `timeText.match(<range regex>)`: the match starting at the
earliest position, with the two captured timestamps; `none` models a null
match result (the fragment is then dropped by the early `return`). -/
def scanTimeMatch : List Char → Option (Timestamp × Timestamp)
  | [] => none
  | c :: cs =>
    match parseTimeRange (c :: cs) with
    | some p => some p
    | none => scanTimeMatch cs

/-! ### Duration label -/

/-- Capture of `\s*(.+)` against `rest`, already trimmed as the code does
with `.trim()`: greedy whitespace, then at least one non-newline character;
the capture runs to the next newline.  When only whitespace follows, the
regex backtracks to capture trailing whitespace, which trims to the empty
string; `none` means no match at this position. -/
def durCapture (rest : List Char) : Option (List Char) :=
  let ws := rest.takeWhile jsWhitespace
  let tail := rest.drop ws.length
  match tail with
  | _ :: _ => some (trimChars (tail.takeWhile (fun c => c ≠ '\n')))
  | [] => if ws.any (fun c => c ≠ '\n') then some [] else none

/-- Scan for the first position where `/Duration:\s*(.+)/` matches and
return the trimmed capture. -/
def findDuration : List Char → Option (List Char)
  | [] => none
  | c :: cs =>
    if ("Duration:").data.isPrefixOf (c :: cs) then
      match durCapture ((c :: cs).drop 9) with
      | some cap => some cap
      | none => findDuration cs
    else findDuration cs

/-- Models `durationText.match(/Duration:\s*(.+)/)` followed by
`timeMatch ? timeMatch[1].trim() : "Unknown"`. -/
def durationOf (s : String) : String :=
  match findDuration s.data with
  | none => "Unknown"
  | some cap => ⟨cap⟩

/-! ### Events -/

/-- One raw fragment pushed by the in-page extractor (`page.evaluate`):
`{date, name, timeText, durationText, imageUrl}`. -/
structure RawFragment where
  date : String
  name : String
  timeText : String
  durationText : String
  imageUrl : String
deriving DecidableEq, Repr

/-- A normalized event, mirroring the `MonopolyEvent` interface.  The
interface marks `type` and `imageUrl` optional, but every construction
site assigns both, so they are plain fields here. -/
structure MonopolyEvent where
  name : String
  startTime : String
  endTime : String
  duration : String
  type : String
  imageUrl : String
deriving DecidableEq, Repr

/-- The keyword chain classifying an event name (lower-cased with
`toLowerCase`, tested with `includes` in source order). -/
def classifyType (nm : String) : String :=
  let n : List Char := nm.data.map Char.toLower
  let inc : String → Bool := fun sub => containsSub sub.data n
  if inc ("milestone") then ("Milestone")
  else if inc ("partners") || inc ("jedi") then ("Partner Event")
  else if inc ("bash") || inc ("builders") then ("Tournament")
  else if inc ("roller") || inc ("high") then ("Quick Event")
  else if inc ("heist") || inc ("mega") then ("Tournament")
  else if inc ("chance") || inc ("lucky") then ("Quick Event")
  else if inc ("season") || inc ("league") then ("Season")
  else if inc ("blitz") || inc ("golden") then ("Special Event")
  else if inc ("boom") || inc ("sticker") then ("Special Event")
  else ("Event")

/-- The `monopolyEvent` object built for a fragment whose time range
matched, with the two captured timestamps. -/
def mkEvent (f : RawFragment) (t1 t2 : Timestamp) : MonopolyEvent :=
  { name := f.name
    startTime := ⟨jsTimestampIso t1⟩
    endTime := ⟨jsTimestampIso t2⟩
    duration := durationOf f.durationText
    type := classifyType f.name
    imageUrl :=
      if ("http").data.isPrefixOf f.imageUrl.data then f.imageUrl
      else ("https://monopolygo.game") ++ f.imageUrl }

/-- The `eventsByDate` object: an association list in key-insertion order
(JS objects preserve insertion order for these non-index string keys). -/
abbrev EventsByDate := List (String × List MonopolyEvent)

/-- `if (!eventsByDate[k]) eventsByDate[k] = []`. -/
def ensureKey (m : EventsByDate) (k : String) : EventsByDate :=
  if m.any (fun p => p.1 = k) then m else m ++ [(k, [])]

/-- `eventsByDate[k].push(ev)`. -/
def pushEvent (m : EventsByDate) (k : String) (ev : MonopolyEvent) : EventsByDate :=
  m.map (fun p => if p.1 = k then (p.1, p.2 ++ [ev]) else p)

/-- The body of the per-fragment `forEach` in the Parse Event Details step:
derive the date key (any throw skips the fragment), create the bucket,
check the time range (bailing after the bucket exists), and push the
event.  `o` is the runtime UTC offset in minutes. -/
def insertFragment (o : Int) (m : EventsByDate) (f : RawFragment) : EventsByDate :=
  match jsDateKey o f.date with
  | none => m
  | some k =>
    let m1 := ensureKey m k
    match scanTimeMatch f.timeText.data with
    | none => m1
    | some (t1, t2) => pushEvent m1 k (mkEvent f t1 t2)

/-- The whole Parse Event Details fold over the raw fragments. -/
def buildEventsByDate (o : Int) (frags : List RawFragment) : EventsByDate :=
  frags.foldl (insertFragment o) []

/-- Key order used by `Object.keys(eventsByDate).sort()` (default
comparator: code-unit lexicographic). -/
def rKey : String → String → Prop := fun a b => strLe a b = true

/-- Event order used by `.sort((a, b) => a.startTime.localeCompare(b.startTime))`;
on the fixed-format timestamps this collation is code-unit order. -/
def rEv : MonopolyEvent → MonopolyEvent → Prop :=
  fun a b => strLe a.startTime b.startTime = true

instance : DecidableRel rKey :=
  fun a b => inferInstanceAs (Decidable (strLe a b = true))

instance : DecidableRel rEv :=
  fun a b => inferInstanceAs (Decidable (strLe a.startTime b.startTime = true))

/-- `eventsByDate[k]` lookup (the sort loop only reads existing keys). -/
def bucketOf (m : EventsByDate) (k : String) : List MonopolyEvent :=
  match m.find? (fun p => p.1 == k) with
  | some p => p.2
  | none => []

/-- The Format JSON Output step: iterate the sorted keys, sorting each
date's event list by `startTime` (V8's sort is stable; insertion sort
over the same total preorder produces the identical stable result). -/
def sortEventsByDate (m : EventsByDate) : EventsByDate :=
  (List.insertionSort rKey (m.map Prod.fst)).map
    (fun k => (k, List.insertionSort rEv (bucketOf m k)))

/-! ### The step tracker and the record stream -/

/-- `ScrapingMethod.status` values. -/
inductive MethodStatus where
  | pending
  | running
  | success
  | failed
deriving DecidableEq, Repr

/-- One entry of the `methods` step list.  The wall-clock `duration` and
the opaque `result` diagnostics of the source interface are real-time and
unconstrained by every claim, so they are not carried here. -/
structure ScrapingMethod where
  name : String
  status : MethodStatus
  error : Option String
deriving DecidableEq, Repr

/-- The initial five-step list. -/
def initialMethods : List ScrapingMethod :=
  [⟨"Puppeteer Browser Automation", .pending, none⟩,
   ⟨"Wait for Dynamic Content", .pending, none⟩,
   ⟨"Extract Events from DOM", .pending, none⟩,
   ⟨"Parse Event Details", .pending, none⟩,
   ⟨"Format JSON Output", .pending, none⟩]

/-- In-place status update `methods[i].status = st`. -/
def setStatusAt (st : MethodStatus) : List ScrapingMethod → Nat → List ScrapingMethod
  | [], _ => []
  | m :: ms, 0 => { m with status := st } :: ms
  | m :: ms, n + 1 => m :: setStatusAt st ms n

/-- The catch block's `methods.find(m => m.status === "running")` followed
by the in-place failure marking: the first running entry becomes failed
and records the error message. -/
def markFailed (e : String) : List ScrapingMethod → List ScrapingMethod
  | [] => []
  | m :: ms =>
    if m.status = .running then { m with status := .failed, error := some e } :: ms
    else m :: markFailed e ms

/-- One self-delimited JSON record of the outbound stream.  `final`
carries `success` plus the three optional members (`none` = dropped by
`JSON.stringify` because the argument was `undefined`). -/
inductive StreamRecord where
  | progress (progress : Nat) (methods : List ScrapingMethod)
  | final (success : Bool) (events : Option EventsByDate)
      (successfulMethod : Option String) (error : Option String)
deriving DecidableEq

/-- Is this record the terminal one? -/
def isFinal : StreamRecord → Bool
  | .final _ _ _ _ => true
  | _ => false

/-- Number of steps currently in the running state. -/
def countRunning : List ScrapingMethod → Nat
  | [] => 0
  | m :: ms => (if m.status = .running then 1 else 0) + countRunning ms

/-- The methods list of a progress record. -/
def methodsOf : StreamRecord → Option (List ScrapingMethod)
  | .progress _ ms => some ms
  | _ => none

/-- The step-status list of the last progress broadcast of a stream. -/
def lastMethods (rs : List StreamRecord) : List ScrapingMethod :=
  (rs.filterMap methodsOf).getLastD []

/-- Message of the error thrown when `import("puppeteer")` rejects. -/
def importFailMsg : String :=
  "Puppeteer not available. Using fallback method with simulated browser behavior."

/-- Terminal error message of the sample-data fallback branch. -/
def fallbackFinalMsg : String :=
  "Puppeteer not available in this environment. Sample data provided. To get real data, deploy this app to a server with Puppeteer support."

/-- Error thrown when the in-page extractor reports a missing container. -/
def boxErrMsg : String := "Event box not found"

/-- The catch block's fallback test:
`error.message.includes("Puppeteer not available")`. -/
def containsNA (e : String) : Bool :=
  containsSub ("Puppeteer not available").data e.data

/-- The hardcoded sample dataset of the fallback branch. -/
def sampleEvents : EventsByDate :=
  [("2025-05-29",
    [{ name := "High Roller", startTime := "2025-05-29T01:00:00",
       endTime := "2025-05-29T06:59:00", duration := "5 Minutes",
       type := "Quick Event",
       imageUrl := "https://api.monopolygo.game/storage/v1/object/public/event/icon/highroller.png" },
     { name := "Mega Heist", startTime := "2025-05-29T07:00:00",
       endTime := "2025-05-29T12:59:00", duration := "45 Minutes",
       type := "Tournament",
       imageUrl := "https://api.monopolygo.game/storage/v1/object/public/event/icon/heist.png" }]),
   ("2025-05-30",
    [{ name := "Golden Blitz", startTime := "2025-05-30T13:00:00",
       endTime := "2025-05-31T12:59:59", duration := "Whole Time",
       type := "Special Event",
       imageUrl := "https://api.monopolygo.game/storage/v1/object/public/event/icon/goldsticker.png" }])]

/-- Outcomes of the external calls the route awaits.  `importOk = false`
makes the dynamic `import("puppeteer")` reject; `launchErr` a launch
failure; `step2Err` a failure of any step-2 page operation (newPage,
viewport, user agent, headers, goto, waitForSelector, waitForTimeout);
`evalErr` a thrown `page.evaluate`; `evalBoxMissing` the evaluate result
`{error: "Event box not found"}`; `frags` the extracted fragments
otherwise; `closeErr` a failure of the happy-path `browser.close()`. -/
structure Env where
  importOk : Bool
  launchErr : Option String
  step2Err : Option String
  evalErr : Option String
  evalBoxMissing : Bool
  frags : List RawFragment
  closeErr : Option String

/-- The environment of an entirely successful run over `frags`. -/
def happyEnv (frags : List RawFragment) : Env :=
  { importOk := true, launchErr := none, step2Err := none, evalErr := none,
    evalBoxMissing := false, frags := frags, closeErr := none }

/-- The terminal record emitted by the catch block: the sample-data
fallback when the message contains "Puppeteer not available", the bare
failure otherwise. -/
def failRecord (e : String) : StreamRecord :=
  if containsNA e then .final false (some sampleEvents) none (some fallbackFinalMsg)
  else .final false none none (some e)

/-- The catch block: mark the running step failed, then branch on the
message (records before the terminal, and the terminal itself). -/
def onFailure (e : String) (ms : List ScrapingMethod) : List StreamRecord × StreamRecord :=
  ([.progress 100 (markFailed e ms)], failRecord e)

/-- The progress records and the terminal record of one invocation of the
route's `start` callback, for runtime UTC offset `o` and environment
`env`; the stream is the progress part followed by the single terminal
record, after which `controller.close()` runs. -/
def runCore (o : Int) (env : Env) : List StreamRecord × StreamRecord :=
  let m1 := setStatusAt .running initialMethods 0
  let r0 := StreamRecord.progress 10 m1
  if env.importOk = false then
    let p := onFailure importFailMsg m1
    (r0 :: p.1, p.2)
  else
    match env.launchErr with
    | some e =>
      let p := onFailure e m1
      (r0 :: p.1, p.2)
    | none =>
      let m2 := setStatusAt .success m1 0
      let r1 := StreamRecord.progress 25 m2
      let m3 := setStatusAt .running m2 1
      match env.step2Err with
      | some e =>
        let p := onFailure e m3
        (r0 :: r1 :: p.1, p.2)
      | none =>
        let m4 := setStatusAt .success m3 1
        let r2 := StreamRecord.progress 50 m4
        let m5 := setStatusAt .running m4 2
        match env.evalErr with
        | some e =>
          let p := onFailure e m5
          (r0 :: r1 :: r2 :: p.1, p.2)
        | none =>
          if env.evalBoxMissing then
            let p := onFailure boxErrMsg m5
            (r0 :: r1 :: r2 :: p.1, p.2)
          else
            let m6 := setStatusAt .success m5 2
            let r3 := StreamRecord.progress 75 m6
            let m7 := setStatusAt .running m6 3
            let m8 := setStatusAt .success m7 3
            let r4 := StreamRecord.progress 90 m8
            let m9 := setStatusAt .running m8 4
            let events := sortEventsByDate (buildEventsByDate o env.frags)
            let m10 := setStatusAt .success m9 4
            let r5 := StreamRecord.progress 100 m10
            match env.closeErr with
            | some e =>
              let p := onFailure e m10
              (r0 :: r1 :: r2 :: r3 :: r4 :: r5 :: p.1, p.2)
            | none =>
              ([r0, r1, r2, r3, r4, r5],
               .final true (some events) (some ("Puppeteer Browser Automation")) none)

/-- The full record stream of one invocation. -/
def runPipeline (o : Int) (env : Env) : List StreamRecord :=
  (runCore o env).1 ++ [(runCore o env).2]

/-! ### Concrete inputs used by witnesses and counterexamples -/

/-- The valid fragment of end-to-end scenario A. -/
def fragA : RawFragment :=
  { date := "2025/05/29", name := "High Roller",
    timeText := "2025/05/29 01:00:00 - 2025/05/29 06:59:00",
    durationText := "Duration: 5 Minutes", imageUrl := "/i/highroller.png" }

/-- The event scenario A produces. -/
def evA : MonopolyEvent :=
  { name := "High Roller", startTime := "2025-05-29T01:00:00",
    endTime := "2025-05-29T06:59:00", duration := "5 Minutes",
    type := "Quick Event", imageUrl := "https://monopolygo.game/i/highroller.png" }

/-- A fragment whose time range is written end-before-start. -/
def fragRev : RawFragment :=
  { date := "2025/05/29", name := "High Roller",
    timeText := "2025/05/29 06:00:00 - 2025/05/29 01:00:00",
    durationText := "Duration: 5 Minutes", imageUrl := "/i/highroller.png" }

/-- The event the normalizer produces for `fragRev` (times copied
verbatim, end before start). -/
def evRev : MonopolyEvent :=
  { name := "High Roller", startTime := "2025-05-29T06:00:00",
    endTime := "2025-05-29T01:00:00", duration := "5 Minutes",
    type := "Quick Event", imageUrl := "https://monopolygo.game/i/highroller.png" }

/-- A fragment whose date header does not parse. -/
def badFrag : RawFragment :=
  { date := "not a date", name := "High Roller",
    timeText := "2025/05/29 01:00:00 - 2025/05/29 06:59:00",
    durationText := "Duration: 5 Minutes", imageUrl := "/i/highroller.png" }

/-- A fragment with a valid date header but a malformed time range. -/
def fragNoTime : RawFragment :=
  { date := "2025/05/29", name := "High Roller",
    timeText := "whenever", durationText := "Duration: 5 Minutes",
    imageUrl := "/i/highroller.png" }

/-- An environment whose step-2 page operation fails with an ordinary
message. -/
def envStep2Fail : Env :=
  { happyEnv [] with step2Err := some ("Navigation timeout of 30000 ms exceeded") }

/-- An environment whose step-2 failure message happens to contain the
fallback trigger substring. -/
def envStep2NA : Env :=
  { happyEnv [] with
    step2Err := some ("Protocol error: Puppeteer not available after crash") }

/-- An environment where the `import("puppeteer")` itself rejects. -/
def envNoPuppeteer : Env :=
  { happyEnv [] with importOk := false }

/-- An environment failing while launching the browser (step 1), with a
message unrelated to availability. -/
def envLaunchFail : Env :=
  { happyEnv [] with launchErr := some ("spawn chrome EACCES") }

/-- An environment whose `page.evaluate` reports a missing container. -/
def envBoxMissing : Env :=
  { happyEnv [] with evalBoxMissing := true }

/-- The first timestamp captured from scenario A's time range. -/
def tsA1 : Timestamp :=
  ⟨['2', '0', '2', '5'], ['0', '5'], ['2', '9'], ['0', '1'], ['0', '0'], ['0', '0']⟩

/-- The second timestamp captured from scenario A's time range. -/
def tsA2 : Timestamp :=
  ⟨['2', '0', '2', '5'], ['0', '5'], ['2', '9'], ['0', '6'], ['5', '9'], ['0', '0']⟩

/-- The step-list failure postcondition of the spec: whenever entry `n` of
the list is failed, entries before `n` are success, entry `n` carries a
non-absent error, and entries after `n` are pending. -/
def stepListOk (ms : List ScrapingMethod) : Prop :=
  ∀ (n : Nat) (m : ScrapingMethod), ms[n]? = some m → m.status = .failed →
    (∀ i mi, i < n → ms[i]? = some mi → mi.status = .success)
    ∧ m.error ≠ none
    ∧ (∀ j mj, n < j → ms[j]? = some mj → mj.status = .pending)

/-! ## Order lemmas for `lexLe` -/

theorem lexLe_refl (l : List Char) : lexLe l l = true := by
  induction l with
  | nil => rfl
  | cons c cs ih => simp [lexLe, ih]

theorem lexLe_total (a b : List Char) : lexLe a b = true ∨ lexLe b a = true := by
  induction a generalizing b with
  | nil => left; rfl
  | cons c cs ih =>
    cases b with
    | nil => right; rfl
    | cons d ds =>
      by_cases h : c = d
      · subst h
        simpa [lexLe] using ih ds
      · rcases lt_or_gt_of_ne h with hlt | hgt
        · left; simp [lexLe, h, hlt]
        · right; simp [lexLe, Ne.symm h, hgt]

theorem lexLe_trans {a b c : List Char} (h1 : lexLe a b = true)
    (h2 : lexLe b c = true) : lexLe a c = true := by
  induction a generalizing b c with
  | nil => rfl
  | cons x xs ih =>
    cases b with
    | nil => simp [lexLe] at h1
    | cons y ys =>
      cases c with
      | nil => simp [lexLe] at h2
      | cons z zs =>
        by_cases hxy : x = y
        · subst hxy
          rw [lexLe, if_pos rfl] at h1
          by_cases hyz : x = z
          · subst hyz
            rw [lexLe, if_pos rfl] at h2
            rw [lexLe, if_pos rfl]
            exact ih h1 h2
          · rw [lexLe, if_neg hyz] at h2 ⊢
            exact h2
        · rw [lexLe, if_neg hxy] at h1
          have hxy' : x < y := of_decide_eq_true h1
          by_cases hyz : y = z
          · subst hyz
            rw [lexLe, if_neg hxy]
            exact h1
          · rw [lexLe, if_neg hyz] at h2
            have hyz' : y < z := of_decide_eq_true h2
            have hxz : x < z := lt_trans hxy' hyz'
            rw [lexLe, if_neg (ne_of_lt hxz)]
            exact decide_eq_true hxz

theorem lexLe_cons (c : Char) (a b : List Char) :
    lexLe (c :: a) (c :: b) = lexLe a b := by
  simp [lexLe]

theorem lexLe_append_left (a x y : List Char) :
    lexLe (a ++ x) (a ++ y) = lexLe x y := by
  induction a with
  | nil => rfl
  | cons c cs ih => simpa [lexLe] using ih

theorem lexLe_append_ne {a b : List Char} (x y : List Char)
    (hlen : a.length = b.length) (hne : a ≠ b) :
    lexLe (a ++ x) (b ++ y) = lexLe a b := by
  induction a generalizing b with
  | nil =>
    cases b with
    | nil => exact absurd rfl hne
    | cons d ds => simp at hlen
  | cons c cs ih =>
    cases b with
    | nil => simp at hlen
    | cons d ds =>
      by_cases hcd : c = d
      · subst hcd
        have hne' : cs ≠ ds := by
          intro h; exact hne (by rw [h])
        have hlen' : cs.length = ds.length := by simpa using hlen
        simpa [lexLe] using ih hlen' hne'
      · simp [lexLe, hcd]

/-! ## Timestamp well-formedness and transliteration -/

theorem parseTS_wf {l r : List Char} {t : Timestamp}
    (h : parseTS l = some (t, r)) : tsWf t := by
  unfold parseTS at h
  split at h
  · rename_i a1 a2 a3 a4 b1 b2 c1 c2 d1 d2 e1 e2 f1 f2 rest
    split at h
    · rename_i hg
      simp only [Option.some.injEq, Prod.mk.injEq] at h
      obtain ⟨ht, -⟩ := h
      subst ht
      simp only [Bool.and_eq_true] at hg
      simp [tsWf, List.all_cons]
      tauto
    · exact absurd h (by simp)
  · exact absurd h (by simp)

theorem parseTimeRange_wf {l : List Char} {t1 t2 : Timestamp}
    (h : parseTimeRange l = some (t1, t2)) : tsWf t1 ∧ tsWf t2 := by
  unfold parseTimeRange at h
  split at h
  · exact absurd h (by simp)
  · rename_i u1 r1 hp1
    split at h
    · rename_i r2
      split at h
      · exact absurd h (by simp)
      · rename_i u2 r3 hp2
        simp only [Option.some.injEq, Prod.mk.injEq] at h
        obtain ⟨h1, h2⟩ := h
        subst h1; subst h2
        exact ⟨parseTS_wf hp1, parseTS_wf hp2⟩
    · exact absurd h (by simp)

theorem scanTimeMatch_wf {l : List Char} {t1 t2 : Timestamp}
    (h : scanTimeMatch l = some (t1, t2)) : tsWf t1 ∧ tsWf t2 := by
  induction l with
  | nil => exact absurd h (by simp [scanTimeMatch])
  | cons c cs ih =>
    unfold scanTimeMatch at h
    split at h
    · rename_i p hp
      simp only [Option.some.injEq] at h
      subst h
      exact parseTimeRange_wf hp
    · exact ih h

theorem slashDash_digit {c : Char} (h : c.isDigit = true) : slashDash c = c := by
  unfold slashDash
  rw [if_neg]
  intro he
  subst he
  simp [Char.isDigit] at h

theorem digit_ne_space {c : Char} (h : c.isDigit = true) : c ≠ ' ' := by
  intro he
  subst he
  simp [Char.isDigit] at h

theorem map_slashDash_digits {l : List Char} (h : l.all Char.isDigit = true) :
    l.map slashDash = l := by
  induction l with
  | nil => rfl
  | cons c cs ih =>
    simp only [List.all_cons, Bool.and_eq_true] at h
    simp [slashDash_digit h.1, ih h.2]

theorem replaceFirstSpace_no_space {l : List Char} (r : List Char)
    (h : ∀ c ∈ l, c ≠ ' ') :
    replaceFirstSpace (l ++ ' ' :: r) = l ++ 'T' :: r := by
  induction l with
  | nil => rfl
  | cons c cs ih =>
    have hc : c ≠ ' ' := h c (by simp)
    simp only [List.cons_append, replaceFirstSpace, if_neg hc]
    rw [List.append_eq, ih (fun x hx => h x (by simp [hx]))]

theorem jsTimestampIso_eq_tsIso {t : Timestamp} (h : tsWf t) :
    jsTimestampIso t = tsIso t := by
  obtain ⟨-, -, -, -, -, -, hy, hmo, hd, hh, hmi, hs⟩ := h
  unfold jsTimestampIso tsRaw
  simp only [List.map_append, List.map_cons,
    map_slashDash_digits hy, map_slashDash_digits hmo, map_slashDash_digits hd,
    map_slashDash_digits hh, map_slashDash_digits hmi, map_slashDash_digits hs]
  have hsd : slashDash '/' = '-' := rfl
  have hsp : slashDash ' ' = ' ' := rfl
  have hco : slashDash ':' = ':' := rfl
  rw [hsd, hsp, hco]
  have hpre : ∀ c ∈ t.y ++ ('-' :: (t.mo ++ ('-' :: t.d))), c ≠ ' ' := by
    intro c hc
    simp only [List.mem_append, List.mem_cons] at hc
    have hcase : c.isDigit = true ∨ c = '-' := by
      rcases hc with hc | hc | hc | hc | hc
      · exact Or.inl (by rw [List.all_eq_true] at hy; exact hy c hc)
      · exact Or.inr hc
      · exact Or.inl (by rw [List.all_eq_true] at hmo; exact hmo c hc)
      · exact Or.inr hc
      · exact Or.inl (by rw [List.all_eq_true] at hd; exact hd c hc)
    rcases hcase with hc1 | hc1
    · exact digit_ne_space hc1
    · subst hc1; decide
  have hrep := replaceFirstSpace_no_space
    (r := t.h ++ (':' :: (t.mi ++ (':' :: t.s)))) hpre
  simp only [List.append_assoc, List.cons_append, List.nil_append] at hrep ⊢
  rw [hrep]
  simp [tsIso, List.append_assoc]

theorem lexLe_seg (a b : List Char) (sep : Char) (x y : List Char)
    (hlen : a.length = b.length) :
    lexLe (a ++ sep :: x) (b ++ sep :: y) =
      (if a = b then lexLe x y else lexLe a b) := by
  by_cases h : a = b
  · subst h
    rw [if_pos rfl, lexLe_append_left, lexLe_cons]
  · rw [if_neg h, lexLe_append_ne _ _ hlen h]

theorem lexLe_tsIso {t u : Timestamp} (ht : tsWf t) (hu : tsWf u) :
    lexLe (tsIso t) (tsIso u) = tsLe t u := by
  obtain ⟨hty, htmo, htd, hth, htmi, hts, -⟩ := ht
  obtain ⟨huy, humo, hud, huh, humi, hus, -⟩ := hu
  unfold tsIso tsLe
  rw [lexLe_seg _ _ _ _ _ (by rw [hty, huy]),
      lexLe_seg _ _ _ _ _ (by rw [htmo, humo]),
      lexLe_seg _ _ _ _ _ (by rw [htd, hud]),
      lexLe_seg _ _ _ _ _ (by rw [hth, huh]),
      lexLe_seg _ _ _ _ _ (by rw [htmi, humi])]
  simp only [ne_eq, ite_not]

/-! ## Date-key lemmas -/

theorem dayShift_eq_zero {o : Int} (h1 : -1440 < o) (h2 : o ≤ 0) :
    dayShift o = 0 := by
  unfold dayShift
  rw [if_pos (by omega)]
  have hlt : (-o).toNat < 1440 := by omega
  rw [Nat.div_eq_of_lt hlt]
  rfl

theorem shiftCivil_zero (c : Civil) : shiftCivil 0 c = c := by
  simp [shiftCivil]

theorem derivedKey_nonpos {o : Int} (h1 : -1440 < o) (h2 : o ≤ 0) (c : Civil) :
    derivedKey o c = civKeyStr c := by
  unfold derivedKey
  rw [dayShift_eq_zero h1 h2, shiftCivil_zero]

/-! ## Pipeline stream shape -/

theorem onFailure_fst (e : String) (ms : List ScrapingMethod) :
    (onFailure e ms).1 = [.progress 100 (markFailed e ms)] := rfl

theorem isFinal_failRecord (e : String) : isFinal (failRecord e) = true := by
  unfold failRecord
  split
  · rfl
  · rfl

theorem runCore_fst_no_final (o : Int) (env : Env) :
    ∀ r ∈ (runCore o env).1, isFinal r = false := by
  obtain ⟨imp, lerr, s2e, everr, ebm, fr, cerr⟩ := env
  cases imp <;> cases lerr <;> cases s2e <;> cases everr <;> cases ebm <;> cases cerr <;>
    simp [runCore, onFailure, isFinal]

theorem isFinal_runCore_snd (o : Int) (env : Env) :
    isFinal (runCore o env).2 = true := by
  obtain ⟨imp, lerr, s2e, everr, ebm, fr, cerr⟩ := env
  cases imp <;> cases lerr <;> cases s2e <;> cases everr <;> cases ebm <;> cases cerr <;>
    (first
      | exact isFinal_failRecord _
      | rfl)

theorem runPipeline_getLast (o : Int) (env : Env) :
    (runPipeline o env).getLast? = some (runCore o env).2 := by
  unfold runPipeline
  exact List.getLast?_concat _

theorem runPipeline_happy_last (o : Int) (frags : List RawFragment) :
    (runPipeline o (happyEnv frags)).getLast? =
      some (.final true (some (sortEventsByDate (buildEventsByDate o frags)))
        (some ("Puppeteer Browser Automation")) none) := by
  rw [runPipeline_getLast]
  rfl

theorem methodsOf_failRecord (e : String) : methodsOf (failRecord e) = none := by
  unfold failRecord
  split
  · rfl
  · rfl

theorem progress_ne_failRecord (p : Nat) (ms : List ScrapingMethod) (e : String) :
    StreamRecord.progress p ms ≠ failRecord e := by
  unfold failRecord
  split
  · simp
  · simp

/-! ## Sortedness instances and key lemmas -/

@[instance] theorem instIsTotalRKey : IsTotal String rKey :=
  ⟨fun a b => lexLe_total a.data b.data⟩

@[instance] theorem instIsTransRKey : IsTrans String rKey :=
  ⟨fun _ _ _ h1 h2 => lexLe_trans h1 h2⟩

@[instance] theorem instIsTotalREv : IsTotal MonopolyEvent rEv :=
  ⟨fun a b => lexLe_total a.startTime.data b.startTime.data⟩

@[instance] theorem instIsTransREv : IsTrans MonopolyEvent rEv :=
  ⟨fun _ _ _ h1 h2 => lexLe_trans h1 h2⟩

theorem keys_sortEventsByDate (m : EventsByDate) :
    (sortEventsByDate m).map Prod.fst = List.insertionSort rKey (m.map Prod.fst) := by
  unfold sortEventsByDate
  rw [List.map_map]
  exact List.map_id _

theorem keys_pushEvent (m : EventsByDate) (k : String) (ev : MonopolyEvent) :
    (pushEvent m k ev).map Prod.fst = m.map Prod.fst := by
  unfold pushEvent
  rw [List.map_map]
  apply List.map_congr_left
  intro p hp
  by_cases h : p.1 = k <;> simp [h]

theorem mem_keys_ensureKey (m : EventsByDate) (k : String) :
    k ∈ (ensureKey m k).map Prod.fst := by
  unfold ensureKey
  split
  · rename_i h
    rcases List.any_eq_true.mp h with ⟨p, hp, he⟩
    have hk : p.1 = k := of_decide_eq_true he
    exact hk ▸ List.mem_map_of_mem Prod.fst hp
  · simp

theorem keys_ensureKey_mono (m : EventsByDate) (k a : String)
    (h : a ∈ m.map Prod.fst) : a ∈ (ensureKey m k).map Prod.fst := by
  unfold ensureKey
  split
  · exact h
  · rw [List.map_append]
    exact List.mem_append_left _ h

theorem keys_insertFragment_mono (o : Int) (m : EventsByDate) (f : RawFragment)
    (a : String) (h : a ∈ m.map Prod.fst) :
    a ∈ (insertFragment o m f).map Prod.fst := by
  unfold insertFragment
  split
  · exact h
  · rename_i k hk
    split
    · exact keys_ensureKey_mono _ _ _ h
    · rw [keys_pushEvent]
      exact keys_ensureKey_mono _ _ _ h

theorem keys_foldl_mono (o : Int) (l : List RawFragment) (m : EventsByDate)
    (a : String) (h : a ∈ m.map Prod.fst) :
    a ∈ (l.foldl (insertFragment o) m).map Prod.fst := by
  induction l generalizing m with
  | nil => exact h
  | cons f fs ih => exact ih _ (keys_insertFragment_mono _ _ _ _ h)

theorem mem_keys_sortEventsByDate (m : EventsByDate) (a : String)
    (h : a ∈ m.map Prod.fst) : a ∈ (sortEventsByDate m).map Prod.fst := by
  rw [keys_sortEventsByDate]
  exact (List.Perm.mem_iff (List.perm_insertionSort rKey _)).mpr h

/-! ## Normalizer reduction lemmas -/

theorem insertFragment_badDate (o : Int) (m : EventsByDate) (f : RawFragment)
    (h : jsParseDate f.date = none) : insertFragment o m f = m := by
  unfold insertFragment
  simp [jsDateKey, h]

theorem insertFragment_noTime (o : Int) (m : EventsByDate) (f : RawFragment)
    (c : Civil) (h1 : jsParseDate f.date = some c)
    (h2 : scanTimeMatch f.timeText.data = none) :
    insertFragment o m f = ensureKey m (derivedKey o c) := by
  unfold insertFragment
  simp [jsDateKey, h1, h2]

theorem insertFragment_withTime (o : Int) (m : EventsByDate) (f : RawFragment)
    (c : Civil) (t1 t2 : Timestamp) (h1 : jsParseDate f.date = some c)
    (h2 : scanTimeMatch f.timeText.data = some (t1, t2)) :
    insertFragment o m f =
      pushEvent (ensureKey m (derivedKey o c)) (derivedKey o c) (mkEvent f t1 t2) := by
  unfold insertFragment
  simp [jsDateKey, h1, h2]

theorem buildEventsByDate_drop_bad (o : Int) (pre post : List RawFragment)
    (f : RawFragment) (h : jsParseDate f.date = none) :
    buildEventsByDate o (pre ++ f :: post) = buildEventsByDate o (pre ++ post) := by
  unfold buildEventsByDate
  rw [List.foldl_append, List.foldl_append, List.foldl_cons,
    insertFragment_badDate o _ f h]

/-! ## Step-list shape lemmas -/

theorem stepListOk_of (ms : List ScrapingMethod) (k : Nat)
    (hstat : ∀ (i : Nat) (m : ScrapingMethod), ms[i]? = some m →
      (i < k → m.status = .success) ∧ (i = k → m.status = .failed ∧ m.error ≠ none) ∧
      (k < i → m.status = .pending)) :
    stepListOk ms := by
  intro n m hget hfail
  have h3 := hstat n m hget
  have hnk : n = k := by
    rcases lt_trichotomy n k with h | h | h
    · have hs := h3.1 h
      rw [hs] at hfail
      exact absurd hfail (by decide)
    · exact h
    · have hs := h3.2.2 h
      rw [hs] at hfail
      exact absurd hfail (by decide)
  subst hnk
  refine ⟨?_, (h3.2.1 rfl).2, ?_⟩
  · intro i mi hik hgeti
    exact (hstat i mi hgeti).1 hik
  · intro j mj hjk hgetj
    exact (hstat j mj hgetj).2.2 hjk

theorem stepListOk_allSuccess {ms : List ScrapingMethod}
    (h : ∀ m ∈ ms, m.status = .success) : stepListOk ms := by
  intro n m hget hfail
  obtain ⟨hlt, rfl⟩ := List.getElem?_eq_some.mp hget
  rw [h _ (List.getElem_mem hlt)] at hfail
  exact absurd hfail (by decide)

theorem stepListOk_fail0 (e n0 n1 n2 n3 n4 : String) :
    stepListOk [⟨n0, .failed, some e⟩, ⟨n1, .pending, none⟩, ⟨n2, .pending, none⟩,
      ⟨n3, .pending, none⟩, ⟨n4, .pending, none⟩] := by
  apply stepListOk_of _ 0
  intro i m hget
  rcases i with - | - | - | - | - | i
  · injection hget with h
    subst h
    exact ⟨fun h => absurd h (by omega), fun _ => ⟨rfl, by simp⟩,
      fun h => absurd h (by omega)⟩
  · injection hget with h
    subst h
    exact ⟨fun h => absurd h (by omega), fun h => absurd h (by omega), fun _ => rfl⟩
  · injection hget with h
    subst h
    exact ⟨fun h => absurd h (by omega), fun h => absurd h (by omega), fun _ => rfl⟩
  · injection hget with h
    subst h
    exact ⟨fun h => absurd h (by omega), fun h => absurd h (by omega), fun _ => rfl⟩
  · injection hget with h
    subst h
    exact ⟨fun h => absurd h (by omega), fun h => absurd h (by omega), fun _ => rfl⟩
  · exact absurd hget (by simp)

theorem stepListOk_fail1 (e n0 n1 n2 n3 n4 : String) :
    stepListOk [⟨n0, .success, none⟩, ⟨n1, .failed, some e⟩, ⟨n2, .pending, none⟩,
      ⟨n3, .pending, none⟩, ⟨n4, .pending, none⟩] := by
  apply stepListOk_of _ 1
  intro i m hget
  rcases i with - | - | - | - | - | i
  · injection hget with h
    subst h
    exact ⟨fun _ => rfl, fun h => absurd h (by omega), fun h => absurd h (by omega)⟩
  · injection hget with h
    subst h
    exact ⟨fun h => absurd h (by omega), fun _ => ⟨rfl, by simp⟩,
      fun h => absurd h (by omega)⟩
  · injection hget with h
    subst h
    exact ⟨fun h => absurd h (by omega), fun h => absurd h (by omega), fun _ => rfl⟩
  · injection hget with h
    subst h
    exact ⟨fun h => absurd h (by omega), fun h => absurd h (by omega), fun _ => rfl⟩
  · injection hget with h
    subst h
    exact ⟨fun h => absurd h (by omega), fun h => absurd h (by omega), fun _ => rfl⟩
  · exact absurd hget (by simp)

theorem stepListOk_fail2 (e n0 n1 n2 n3 n4 : String) :
    stepListOk [⟨n0, .success, none⟩, ⟨n1, .success, none⟩, ⟨n2, .failed, some e⟩,
      ⟨n3, .pending, none⟩, ⟨n4, .pending, none⟩] := by
  apply stepListOk_of _ 2
  intro i m hget
  rcases i with - | - | - | - | - | i
  · injection hget with h
    subst h
    exact ⟨fun _ => rfl, fun h => absurd h (by omega), fun h => absurd h (by omega)⟩
  · injection hget with h
    subst h
    exact ⟨fun _ => rfl, fun h => absurd h (by omega), fun h => absurd h (by omega)⟩
  · injection hget with h
    subst h
    exact ⟨fun h => absurd h (by omega), fun _ => ⟨rfl, by simp⟩,
      fun h => absurd h (by omega)⟩
  · injection hget with h
    subst h
    exact ⟨fun h => absurd h (by omega), fun h => absurd h (by omega), fun _ => rfl⟩
  · injection hget with h
    subst h
    exact ⟨fun h => absurd h (by omega), fun h => absurd h (by omega), fun _ => rfl⟩
  · exact absurd hget (by simp)

theorem methodsOf_progress (p : Nat) (ms : List ScrapingMethod) :
    methodsOf (.progress p ms) = some ms := rfl

theorem methodsOf_final (s : Bool) (ev : Option EventsByDate) (sm er : Option String) :
    methodsOf (.final s ev sm er) = none := rfl

theorem runCore_progress_le_one (o : Int) (env : Env) :
    ((runCore o env).1.all fun r =>
      match r with
      | .progress _ ms => Nat.ble (countRunning ms) 1
      | _ => true) = true := by
  obtain ⟨imp, lerr, s2e, everr, ebm, fr, cerr⟩ := env
  cases imp <;> cases lerr <;> cases s2e <;> cases everr <;> cases ebm <;> cases cerr <;>
    simp [runCore, onFailure, countRunning, markFailed, setStatusAt, initialMethods]

/-! ## Claim theorems -/

/-- C7: in every run, exactly one record of type "final" is emitted, it is
the last record of the stream (the stream is closed right after it by
`sendFinal`), and by the type of `StreamRecord.final` it carries `success`
plus the optional `events`, `successfulMethod` and `error` members. -/
theorem c7_single_final (o : Int) (env : Env) :
    (runPipeline o env).countP isFinal = 1 ∧
    ∃ r, (runPipeline o env).getLast? = some r ∧ isFinal r = true := by
  constructor
  · unfold runPipeline
    rw [List.countP_append]
    have h0 : (runCore o env).1.countP isFinal = 0 :=
      List.countP_eq_zero.mpr (fun a ha => by simp [runCore_fst_no_final o env a ha])
    rw [h0]
    simp [List.countP_cons, isFinal_runCore_snd o env]
  · exact ⟨_, runPipeline_getLast o env, isFinal_runCore_snd o env⟩

/-- C8 (amended): every progress record broadcast by a run has at most one
step in the running state; "exactly one" fails because each step's success
is recorded and broadcast before the next step is marked running, so all
progress records after the first have zero running steps. -/
theorem c8_at_most_one_running (o : Int) (env : Env) (p : Nat)
    (ms : List ScrapingMethod)
    (h : StreamRecord.progress p ms ∈ runPipeline o env) :
    countRunning ms ≤ 1 := by
  unfold runPipeline at h
  rw [List.mem_append] at h
  rcases h with h | h
  · have hall := runCore_progress_le_one o env
    rw [List.all_eq_true] at hall
    have hr := hall _ h
    simpa [Nat.ble_eq] using hr
  · rw [List.mem_singleton] at h
    have hf := isFinal_runCore_snd o env
    rw [← h] at hf
    exact absurd hf (by simp [isFinal])

/-- C8 counterexample: in the happy run the second broadcast record
(progress 25) has zero steps running — step 1 is already marked success
and step 2 is not yet marked running — refuting "exactly one step is
Running in every progress record". -/
theorem c8_cex :
    (runPipeline 0 (happyEnv []))[1]? =
      some (.progress 25
        [⟨"Puppeteer Browser Automation", .success, none⟩,
         ⟨"Wait for Dynamic Content", .pending, none⟩,
         ⟨"Extract Events from DOM", .pending, none⟩,
         ⟨"Parse Event Details", .pending, none⟩,
         ⟨"Format JSON Output", .pending, none⟩])
    ∧ countRunning
        [⟨"Puppeteer Browser Automation", .success, none⟩,
         ⟨"Wait for Dynamic Content", .pending, none⟩,
         ⟨"Extract Events from DOM", .pending, none⟩,
         ⟨"Parse Event Details", .pending, none⟩,
         ⟨"Format JSON Output", .pending, none⟩] = 0 := by
  constructor
  · rfl
  · rfl

/-- C8 witness: the amended bound instantiated at the first record of the
happy run over no fragments. -/
theorem c8_witness :
    countRunning (setStatusAt .running initialMethods 0) ≤ 1 :=
  c8_at_most_one_running 0 (happyEnv []) 10 (setStatusAt .running initialMethods 0)
    (by decide)

/-- C5: after a failure at step N, the final broadcast step-status list has
steps 1..N-1 in state success, step N failed with a non-absent error
string, and steps N+1..5 pending (vacuously true for runs that fail at no
step; steps 4 and 5 cannot fail in the source). -/
theorem c5_steplist (o : Int) (env : Env) :
    stepListOk (lastMethods (runPipeline o env)) := by
  obtain ⟨imp, lerr, s2e, everr, ebm, fr, cerr⟩ := env
  cases imp <;> cases lerr <;> cases s2e <;> cases everr <;> cases ebm <;> cases cerr <;>
    simp [runPipeline, runCore, onFailure, lastMethods, methodsOf_progress, methodsOf_final,
      methodsOf_failRecord, markFailed, setStatusAt, initialMethods, List.filterMap_cons,
      List.filterMap_append, List.getLastD] <;>
    (first
      | exact stepListOk_fail0 _ _ _ _ _ _
      | exact stepListOk_fail1 _ _ _ _ _ _
      | exact stepListOk_fail2 _ _ _ _ _ _
      | exact stepListOk_allSuccess (by simp))

/-- C5 witness: the postcondition instantiated at a run whose step-2 page
operation fails, checked at the concrete failed index. -/
theorem c5_witness :
    (lastMethods (runPipeline 0 envStep2Fail))[1]? =
      some ⟨"Wait for Dynamic Content", .failed,
        some ("Navigation timeout of 30000 ms exceeded")⟩
    ∧ ((∀ i mi, i < 1 →
          (lastMethods (runPipeline 0 envStep2Fail))[i]? = some mi →
          mi.status = .success)
        ∧ (ScrapingMethod.mk "Wait for Dynamic Content" .failed
            (some ("Navigation timeout of 30000 ms exceeded"))).error ≠ none
        ∧ (∀ j mj, 1 < j →
            (lastMethods (runPipeline 0 envStep2Fail))[j]? = some mj →
            mj.status = .pending)) :=
  ⟨by decide, c5_steplist 0 envStep2Fail 1 _ (by decide) (by decide)⟩

/-- C6 (amended, "when" direction): when step 1 fails because the rendering
capability is unavailable (the dynamic import rejects), the terminal
record has success false, the fixed two-date three-event sample dataset as
events, an error mentioning unavailability, and no successfulMethod.  The
"only when" direction of the claim is false (see the counterexample): the
trigger is the caught message containing "Puppeteer not available", so a
failure at any step whose message happens to contain that substring takes
the same path. -/
theorem c6_fallback (o : Int) (env : Env) (h : env.importOk = false) :
    (runPipeline o env).getLast? =
      some (.final false (some sampleEvents) none (some fallbackFinalMsg))
    ∧ containsSub ("not available").data fallbackFinalMsg.data = true := by
  refine ⟨?_, by decide⟩
  rw [runPipeline_getLast]
  obtain ⟨imp, lerr, s2e, everr, ebm, fr, cerr⟩ := env
  cases imp
  · rfl
  · exact absurd h (by simp)

/-- C6 witness: the fallback outcome at the concrete no-puppeteer
environment. -/
theorem c6_witness :
    (envNoPuppeteer.importOk = false)
    ∧ ((runPipeline 0 envNoPuppeteer).getLast? =
        some (.final false (some sampleEvents) none (some fallbackFinalMsg))
      ∧ containsSub ("not available").data fallbackFinalMsg.data = true) :=
  ⟨rfl, c6_fallback 0 envNoPuppeteer rfl⟩

/-- C6 counterexample to "only when step 1 fails because the capability is
unavailable": a step-2 failure whose message merely contains the trigger
substring also produces the sample-data fallback, although step 1
succeeded (its final status is success and step 2 is the failed one). -/
theorem c6_cex :
    (lastMethods (runPipeline 0 envStep2NA))[0]? =
      some ⟨"Puppeteer Browser Automation", .success, none⟩
    ∧ ((lastMethods (runPipeline 0 envStep2NA))[1]?.map (fun m => m.status)) =
      some .failed
    ∧ (runPipeline 0 envStep2NA).getLast? =
      some (.final false (some sampleEvents) none (some fallbackFinalMsg)) := by
  refine ⟨?_, ?_, ?_⟩
  · rfl
  · rfl
  · rfl

/-- C3 (code bug): the date key is *not* derived timezone-independently
from the header text: the code parses the header as local midnight and
formats the UTC date, so east of UTC (positive offset, here +300 minutes)
the key is the previous calendar day, while at UTC it is the header's own
date. -/
theorem c3_datekey_tz :
    jsDateKey 300 "2025/05/29" = some ("2025-05-28")
    ∧ jsDateKey 0 "2025/05/29" = some ("2025-05-29")
    ∧ jsDateKey (-300) "2025/05/29" = some ("2025-05-29") := by
  refine ⟨?_, ?_, ?_⟩
  · rfl
  · rfl
  · rfl

/-- Scenario A's normalizer output under a non-east-of-UTC runtime
offset. -/
theorem build_fragA (o : Int) (h1 : -1440 < o) (h2 : o ≤ 0) :
    buildEventsByDate o [fragA] = [("2025-05-29", [evA])] := by
  unfold buildEventsByDate
  rw [List.foldl_cons,
    insertFragment_withTime o [] fragA ⟨2025, 5, 29⟩ tsA1 tsA2 (by decide) (by decide),
    derivedKey_nonpos h1 h2]
  rfl

/-- C1 (amended): with the container present and exactly the one valid
scenario-A fragment, provided the runtime UTC offset is in (-24h, 0]
(UTC itself or west of it), the terminal record has success true and
events exactly `{"2025-05-29": [evA]}` with category "Quick Event" and
the icon resolved against the site origin.  East of UTC the key shifts to
the previous day (see the counterexample). -/
theorem c1_scenarioA (o : Int) (h1 : -1440 < o) (h2 : o ≤ 0) :
    (runPipeline o (happyEnv [fragA])).getLast? =
      some (.final true (some [("2025-05-29", [evA])])
        (some ("Puppeteer Browser Automation")) none) := by
  rw [runPipeline_happy_last, build_fragA o h1 h2]
  rfl

/-- C1 witness: scenario A at offset 0. -/
theorem c1_scenarioA_witness :
    ((-1440 : Int) < 0 ∧ (0 : Int) ≤ 0)
    ∧ (runPipeline 0 (happyEnv [fragA])).getLast? =
      some (.final true (some [("2025-05-29", [evA])])
        (some ("Puppeteer Browser Automation")) none) :=
  ⟨by decide, c1_scenarioA 0 (by decide) (by decide)⟩

/-- C1 counterexample: at runtime offset +300 minutes (UTC+5) the very same
run stores the event under "2025-05-28", not "2025-05-29", so the claim as
stated (with no timezone restriction) is false. -/
theorem c1_scenarioA_cex :
    (runPipeline 300 (happyEnv [fragA])).getLast? =
      some (.final true (some [("2025-05-28", [evA])])
        (some ("Puppeteer Browser Automation")) none)
    ∧ (StreamRecord.final true (some [("2025-05-28", [evA])])
        (some ("Puppeteer Browser Automation")) none)
      ≠ (StreamRecord.final true (some [("2025-05-29", [evA])])
        (some ("Puppeteer Browser Automation")) none) := by
  constructor
  · rfl
  · decide

/-- C2 (amended): for every fragment whose time range matches, the produced
event's startTime and endTime are the verbatim transliterated first and
second captured timestamps, and startTime <= endTime holds exactly when
the first timestamp is componentwise at most the second — the code
performs no ordering check, so the unconditional invariant of the claim
fails (see the counterexample). -/
theorem c2_start_le_end (f : RawFragment) (t1 t2 : Timestamp)
    (hm : scanTimeMatch f.timeText.data = some (t1, t2))
    (hord : tsLe t1 t2 = true) :
    strLe (mkEvent f t1 t2).startTime (mkEvent f t1 t2).endTime = true := by
  obtain ⟨hw1, hw2⟩ := scanTimeMatch_wf hm
  show lexLe (jsTimestampIso t1) (jsTimestampIso t2) = true
  rw [jsTimestampIso_eq_tsIso hw1, jsTimestampIso_eq_tsIso hw2, lexLe_tsIso hw1 hw2]
  exact hord

/-- C2 witness: the ordered scenario-A range. -/
theorem c2_witness :
    (scanTimeMatch fragA.timeText.data = some (tsA1, tsA2))
    ∧ (tsLe tsA1 tsA2 = true)
    ∧ strLe (mkEvent fragA tsA1 tsA2).startTime (mkEvent fragA tsA1 tsA2).endTime = true :=
  ⟨by decide, by decide, c2_start_le_end fragA tsA1 tsA2 (by decide) (by decide)⟩

/-- C2 counterexample: a fragment whose raw range is written end-before-
start is accepted by the normalizer and yields an event with
startTime > endTime, refuting the claimed invariant. -/
theorem c2_cex :
    sortEventsByDate (buildEventsByDate 0 [fragRev]) = [("2025-05-29", [evRev])]
    ∧ strLe evRev.startTime evRev.endTime = false := by
  constructor
  · rfl
  · rfl

/-- C4: in the terminal events value the date keys are in ascending sorted
order, and every date's event list is sorted ascending by startTime under
lexicographic string comparison. -/
theorem c4_sorted (o : Int) (frags : List RawFragment) :
    List.Sorted rKey ((sortEventsByDate (buildEventsByDate o frags)).map Prod.fst)
    ∧ ∀ p ∈ sortEventsByDate (buildEventsByDate o frags), List.Sorted rEv p.2 := by
  constructor
  · rw [keys_sortEventsByDate]
    exact List.sorted_insertionSort rKey _
  · intro p hp
    unfold sortEventsByDate at hp
    rcases List.mem_map.mp hp with ⟨k, -, rfl⟩
    exact List.sorted_insertionSort rEv _

/-- C4 witness: the sortedness facts at a concrete two-fragment input. -/
theorem c4_witness :
    List.Sorted rKey
      ((sortEventsByDate (buildEventsByDate 0 [fragA, fragNoTime])).map Prod.fst)
    ∧ ∀ p ∈ sortEventsByDate (buildEventsByDate 0 [fragA, fragNoTime]),
        List.Sorted rEv p.2 :=
  c4_sorted 0 [fragA, fragNoTime]

/-- C9: a fragment whose date text cannot be parsed produces no event
anywhere (the whole normalizer output is as if the fragment were absent),
does not fail the pipeline, and does not surface as a user-visible error:
the run still ends with success true, no error member, and the remaining
fragments fully processed. -/
theorem c9_dropped_fragment (o : Int) (pre post : List RawFragment)
    (f : RawFragment) (h : jsParseDate f.date = none) :
    buildEventsByDate o (pre ++ f :: post) = buildEventsByDate o (pre ++ post)
    ∧ (runPipeline o (happyEnv (pre ++ f :: post))).getLast? =
        some (.final true
          (some (sortEventsByDate (buildEventsByDate o (pre ++ post))))
          (some ("Puppeteer Browser Automation")) none) := by
  have hb := buildEventsByDate_drop_bad o pre post f h
  exact ⟨hb, by rw [runPipeline_happy_last, hb]⟩

/-- C9 witness: dropping the unparseable fragment next to scenario A's
fragment. -/
theorem c9_witness :
    (jsParseDate badFrag.date = none)
    ∧ (buildEventsByDate 0 ([] ++ badFrag :: [fragA]) = buildEventsByDate 0 ([] ++ [fragA])
      ∧ (runPipeline 0 (happyEnv ([] ++ badFrag :: [fragA]))).getLast? =
          some (.final true
            (some (sortEventsByDate (buildEventsByDate 0 ([] ++ [fragA]))))
            (some ("Puppeteer Browser Automation")) none)) :=
  ⟨by decide, c9_dropped_fragment 0 [] [fragA] badFrag (by decide)⟩

/-- C10 (implicit claim): for a fragment whose date parses but whose time
text does not match the range pattern, the derived date key is still
present among the serialized keys (the bucket is created before the time
check), and with that fragment alone the terminal events value is exactly
the one date key mapped to an empty list. -/
theorem c10_empty_bucket (o : Int) (pre post : List RawFragment)
    (f : RawFragment) (c : Civil) (h1 : jsParseDate f.date = some c)
    (h2 : scanTimeMatch f.timeText.data = none) :
    derivedKey o c ∈
      (sortEventsByDate (buildEventsByDate o (pre ++ f :: post))).map Prod.fst
    ∧ sortEventsByDate (buildEventsByDate o [f]) = [(derivedKey o c, [])] := by
  constructor
  · apply mem_keys_sortEventsByDate
    unfold buildEventsByDate
    rw [List.foldl_append, List.foldl_cons]
    apply keys_foldl_mono
    rw [insertFragment_noTime o _ f c h1 h2]
    exact mem_keys_ensureKey _ _
  · have hb : buildEventsByDate o [f] = [(derivedKey o c, [])] := by
      unfold buildEventsByDate
      rw [List.foldl_cons, insertFragment_noTime o _ f c h1 h2]
      rfl
    rw [hb]
    unfold sortEventsByDate
    simp [bucketOf, List.insertionSort, List.orderedInsert, List.find?]

/-- C10 witness: the empty bucket left by the concrete no-time fragment. -/
theorem c10_witness :
    (jsParseDate fragNoTime.date = some ⟨2025, 5, 29⟩)
    ∧ (scanTimeMatch fragNoTime.timeText.data = none)
    ∧ (derivedKey 0 ⟨2025, 5, 29⟩ ∈
        (sortEventsByDate (buildEventsByDate 0 ([] ++ fragNoTime :: []))).map Prod.fst
      ∧ sortEventsByDate (buildEventsByDate 0 [fragNoTime]) =
          [(derivedKey 0 ⟨2025, 5, 29⟩, [])]) :=
  ⟨by decide, by decide,
    c10_empty_bucket 0 [] [] fragNoTime ⟨2025, 5, 29⟩ (by decide) (by decide)⟩

end MGScraper
